import Mathlib

/-!
Verification of the hot-reload dependency-signal registry and the
frame-resource tracking code of the shell-texturing renderer.

The development shallowly embeds the relevant Rust source files:
  * src/render/watched_shaders.rs  (WatchedShaders, DependencySignal)
  * src/render/shell/mod.rs        (ShellRenderer)
  * src/render/post/mod.rs         (PostProcessing)
  * src/render/render.rs           (RenderPipeline::render_system)

External pyrite-engine collaborators (WatchedHandle polling, Vulkan object
construction) are modelled as explicit inputs.  HashMap String keyed maps are
embedded as association lists with replace-on-insert semantics; HashSet values
as duplicate-free lists with membership-guarded insertion.  Rust panics
(unwrap on None, pipeline construction failure inside the engine) are
modelled by an Option-valued result where none stands for a panic.
-/

/-- Association-list lookup, embedding HashMap::get. -/
def listLookup {α β : Type} [DecidableEq α] (k : α) : List (α × β) → Option β
  | [] => none
  | e :: rest => if e.1 = k then some e.2 else listLookup k rest

/-- Association-list insert, embedding HashMap::insert (replace on key hit,
append otherwise). -/
def listInsert {α β : Type} [DecidableEq α] (k : α) (v : β) :
    List (α × β) → List (α × β)
  | [] => [(k, v)]
  | e :: rest => if e.1 = k then (k, v) :: rest else e :: listInsert k v rest

/-- Set-semantics insertion, embedding HashSet::insert. -/
def setInsert {α : Type} [DecidableEq α] (x : α) (s : List α) : List α :=
  if x ∈ s then s else x :: s

/-- Set-semantics bulk insertion, embedding HashSet::extend. -/
def extendSet {α : Type} [DecidableEq α] (s : List α) (xs : List α) : List α :=
  xs.foldl (fun acc x => setInsert x acc) s

/-! ## WatchedShaders (src/render/watched_shaders.rs) -/

/-- Shader bytecode, Vec of u32 words. -/
abbrev Spirv := List Nat

/-- Observable state of an external pyrite WatchedHandle of Vec of u32, through
the methods the repository calls: is_loaded(), is_error(), get_error(), get().
The handle itself is owned by the external asset system; only these
observations reach the code under verification. -/
structure WatchedHandle where
  isLoaded : Bool
  isError : Bool
  errorMsg : String
  content : Option Spirv
deriving DecidableEq, Repr

/-- One tick of external file-watch activity for a handle: the Bool returned
by WatchedHandle::update (true when the backing file changed) and the handle
state observable after that call. -/
structure Poll where
  updated : Bool
  after : WatchedHandle
deriving DecidableEq, Repr

/-- The WatchedShaders resource.  DependencySignal is a Uuid in the source;
its only used properties are equality and freshness of Uuid::new_v4, so
signals are embedded as Nats with a fresh-counter allocator. -/
structure WatchedShaders where
  shaders : List (String × WatchedHandle)
  shadersLoaded : List String
  dependencySignals : List (Nat × List String)
  dirtyDependencySignals : List Nat
  nextSignal : Nat
deriving DecidableEq, Repr

/-- WatchedShaders::new. -/
def WatchedShaders.new : WatchedShaders :=
  { shaders := []
    shadersLoaded := []
    dependencySignals := []
    dirtyDependencySignals := []
    nextSignal := 0 }

/-- WatchedShaders::create_dependency_signal: allocate a fresh signal and
register it with an empty dependency list. -/
def WatchedShaders.createDependencySignal (ws : WatchedShaders) :
    Nat × WatchedShaders :=
  (ws.nextSignal,
   { ws with
      dependencySignals := listInsert ws.nextSignal [] ws.dependencySignals
      nextSignal := ws.nextSignal + 1 })

/-- WatchedShaders::load_shader.  The file path only feeds the external
assets.load call, whose result is the watched handle h; the registry itself
stores the handle under the given name and pushes the name (Vec::push, list
semantics, duplicates retained) onto the signal's dependency list.  The source
unwraps the dependency-signal lookup, so an unregistered signal is a panic,
modelled as none. -/
def WatchedShaders.loadShader (ws : WatchedShaders) (name : String)
    (h : WatchedHandle) (sig : Nat) : Option WatchedShaders :=
  match listLookup sig ws.dependencySignals with
  | none => none
  | some deps =>
      some { ws with
        shaders := listInsert name h ws.shaders
        dependencySignals :=
          listInsert sig (deps ++ [name]) ws.dependencySignals }

/-- WatchedShaders::is_dependency_signaled. -/
def WatchedShaders.isDependencySignaled (ws : WatchedShaders) (sig : Nat) :
    Bool :=
  decide (sig ∈ ws.dirtyDependencySignals)

/-- Result of WatchedShaders::get_shader, with the source's panic made
explicit: get_shader maps the handle through WatchedHandle::get().unwrap(),
which panics when the handle has not produced content yet. -/
inductive GetShaderResult where
  | notTracked
  | panicked
  | found (v : Spirv)
deriving DecidableEq, Repr

/-- WatchedShaders::get_shader. -/
def WatchedShaders.getShader (ws : WatchedShaders) (name : String) :
    GetShaderResult :=
  match listLookup name ws.shaders with
  | none => GetShaderResult.notTracked
  | some h =>
      match h.content with
      | none => GetShaderResult.panicked
      | some v => GetShaderResult.found v

/-- Accumulator threaded through the per-shader loop of
WatchedShaders::update_system. -/
structure TickAcc where
  loaded : List String
  dirty : List Nat
  log : List (String × String)
deriving DecidableEq, Repr

/-- The dependency signals whose name list contains the given shader name
(the filter/map inside update_system's dirty extension). -/
def signalsContaining (name : String) (l : List (Nat × List String)) :
    List Nat :=
  (l.filter (fun e => decide (name ∈ e.2))).map Prod.fst

/-- One iteration of the loop body of WatchedShaders::update_system for the
shader entry e (pre-update handle), given this tick's external poll:
  new_loaded = handle.is_loaded() && !shaders_loaded.contains(name);
  shaders_loaded.insert(name) when new_loaded;
  if handle.update(assets) || new_loaded then
    if !handle.is_error() then mark every signal depending on name dirty
    else print a diagnostic naming the shader and the error. -/
def tickStep (poll : String → Poll) (deps : List (Nat × List String))
    (acc : TickAcc) (e : String × WatchedHandle) : TickAcc :=
  if (poll e.1).updated || (e.2.isLoaded && !(decide (e.1 ∈ acc.loaded))) then
    if (poll e.1).after.isError then
      { loaded :=
          if e.2.isLoaded && !(decide (e.1 ∈ acc.loaded)) then e.1 :: acc.loaded
          else acc.loaded
        dirty := acc.dirty
        log := acc.log ++ [(e.1, (poll e.1).after.errorMsg)] }
    else
      { loaded :=
          if e.2.isLoaded && !(decide (e.1 ∈ acc.loaded)) then e.1 :: acc.loaded
          else acc.loaded
        dirty := extendSet acc.dirty (signalsContaining e.1 deps)
        log := acc.log }
  else
    { loaded :=
        if e.2.isLoaded && !(decide (e.1 ∈ acc.loaded)) then e.1 :: acc.loaded
        else acc.loaded
      dirty := acc.dirty
      log := acc.log }

/-- WatchedShaders::update_system: clear the dirty set, then run the loop
body over every tracked shader; handles end the tick in their post-update
state.  The second component is the sequence of printed diagnostics,
as (shader name, error message) pairs. -/
def WatchedShaders.updateSystem (ws : WatchedShaders) (poll : String → Poll) :
    WatchedShaders × List (String × String) :=
  let acc := ws.shaders.foldl (tickStep poll ws.dependencySignals)
    { loaded := ws.shadersLoaded, dirty := [], log := [] }
  ({ ws with
      shaders := ws.shaders.map (fun e => (e.1, (poll e.1).after))
      shadersLoaded := acc.loaded
      dirtyDependencySignals := acc.dirty }, acc.log)

/-- The update/new_loaded condition of the tick's loop body, phrased against
a fixed pre-tick shaders_loaded set. -/
def changed (poll : String → Poll) (loaded0 : List String)
    (e : String × WatchedHandle) : Bool :=
  (poll e.1).updated || (e.2.isLoaded && !(decide (e.1 ∈ loaded0)))

/-- A shader that changed this tick and whose post-update handle carries no
error: exactly the shaders whose change marks dependents dirty. -/
def changedOk (poll : String → Poll) (loaded0 : List String)
    (e : String × WatchedHandle) : Bool :=
  changed poll loaded0 e && !(poll e.1).after.isError

/-- A shader that changed this tick but whose reload errored: exactly the
shaders for which update_system prints a diagnostic. -/
def changedErr (poll : String → Poll) (loaded0 : List String)
    (e : String × WatchedHandle) : Bool :=
  changed poll loaded0 e && (poll e.1).after.isError

/-! ## GPU objects and commands (shared vocabulary of the render subsystems)

The heterogeneous Arc of dyn Any used-object lists of the source are embedded
as a closed inductive of the concrete GPU resources this program creates.
Pipeline objects are rebuilt over time, so they carry a Nat identity supplied
by the external construction call. -/

inductive GpuObj where
  | planeMeshVertexBuffer
  | planeMeshIndexBuffer
  | shellResolveImage
  | shellResolveDepthImage
  | backbufferImage
  | backbufferDepthImage
  | frameDescriptorSet (i : Nat)
  | cameraBuffer
  | postOutImage
  | postInImage
  | postInDepthImage
  | postDescriptorSet
  | shellGraphicsPipeline (id : Nat)
  | postComputePipeline (id : Nat)
deriving DecidableEq, Repr

/-- The command-buffer calls the two render methods record, with the GPU
resources each call references. -/
inductive Cmd where
  | dynamicStateViewport
  | dynamicStateScissor
  | bindGraphicsPipeline (p : GpuObj)
  | bindDescriptorSets (ds : List GpuObj)
  | beginRenderPass (attachments : List GpuObj)
  | writePushConstants
  | bindVertexBuffer (b : GpuObj)
  | bindIndexBuffer (b : GpuObj)
  | drawIndexed (indexCount instanceCount : Nat)
  | endRenderPass
  | pipelineBarrier (img : GpuObj)
  | bindComputePipeline (p : GpuObj)
  | dispatchCompute (x y z : Nat)
deriving DecidableEq, Repr

/-- The GPU resources a recorded command makes the submission read. -/
def Cmd.refs : Cmd → List GpuObj
  | Cmd.bindGraphicsPipeline p => [p]
  | Cmd.bindDescriptorSets ds => ds
  | Cmd.beginRenderPass attachments => attachments
  | Cmd.bindVertexBuffer b => [b]
  | Cmd.bindIndexBuffer b => [b]
  | Cmd.pipelineBarrier img => [img]
  | Cmd.bindComputePipeline p => [p]
  | _ => []

/-- All GPU resources referenced by a recorded command sequence. -/
def refsOfCmds (l : List Cmd) : List GpuObj :=
  l.foldr (fun c acc => c.refs ++ acc) []

/-! ## ShellRenderer (src/render/shell/mod.rs) -/

/-- The ShellRenderer resource.  The fixed GPU objects it owns
(shell_resolve_image, shell_resolve_depth_image, plane_mesh buffers) are the
corresponding GpuObj constants; plane_mesh vertex count is carried as data.
The f32 field shell_thickness only feeds push constants and stdout, touching
no claim, and is elided (floating point). -/
structure ShellRenderer where
  shaderDependencySignal : Nat
  pipeline : Option Nat
  resolution : Nat
  planeMeshVertexCount : Nat
deriving DecidableEq, Repr

/-- ShellRenderer::is_ready. -/
def ShellRenderer.isReady (s : ShellRenderer) : Bool :=
  s.pipeline.isSome

/-- ShellRenderer::render: when the pipeline exists, record the draw commands
of the shell pass (in source order) and return the dependency list the source
builds; when absent, record nothing and return the empty list.  frameIndex
selects render_pipeline.frame(render_manager).descriptor_set().  The render
pass begun was built by refresh_pipeline over the backbuffer color attachment,
the shell resolve attachment and the backbuffer depth attachment. -/
def ShellRenderer.render (s : ShellRenderer) (frameIndex : Nat) :
    List Cmd × List GpuObj :=
  match s.pipeline with
  | none => ([], [])
  | some pid =>
      ([Cmd.dynamicStateViewport,
        Cmd.dynamicStateScissor,
        Cmd.bindGraphicsPipeline (GpuObj.shellGraphicsPipeline pid),
        Cmd.bindDescriptorSets [GpuObj.frameDescriptorSet frameIndex],
        Cmd.beginRenderPass [GpuObj.backbufferImage, GpuObj.shellResolveImage,
          GpuObj.backbufferDepthImage],
        Cmd.writePushConstants,
        Cmd.bindVertexBuffer GpuObj.planeMeshVertexBuffer,
        Cmd.bindIndexBuffer GpuObj.planeMeshIndexBuffer,
        Cmd.drawIndexed s.planeMeshVertexCount s.resolution,
        Cmd.endRenderPass,
        Cmd.pipelineBarrier GpuObj.backbufferDepthImage],
       [GpuObj.planeMeshVertexBuffer,
        GpuObj.planeMeshIndexBuffer,
        GpuObj.shellResolveImage,
        GpuObj.backbufferImage,
        GpuObj.backbufferDepthImage])

/-- ShellRenderer::refresh_pipeline.  The source fetches both shader blobs
with get_shader(..).unwrap() and had them handed to Shader::new and
GraphicsPipeline::new, which return the built objects directly: the source
has no failure branch, so a missing blob or a failed construction is a panic
(none).  build is the outcome of the external GraphicsPipeline::new chain:
some pid when construction succeeds with the new pipeline object pid, none
when it fails.  On success the new pipeline replaces the old in place. -/
def ShellRenderer.refreshPipeline (s : ShellRenderer) (ws : WatchedShaders)
    (build : Option Nat) : Option ShellRenderer :=
  match ws.getShader "shell_vert" with
  | GetShaderResult.found _ =>
      match ws.getShader "shell_frag" with
      | GetShaderResult.found _ =>
          match build with
          | some pid => some { s with pipeline := some pid }
          | none => none
      | _ => none
  | _ => none

/-- Resolution key edits at the tail of ShellRenderer::update_system
(H decrements saturating at 1, L increments). -/
def ShellRenderer.applyKeys (s : ShellRenderer) (keyH keyL : Bool) :
    ShellRenderer :=
  let s1 := if keyH then { s with resolution := max (s.resolution - 1) 1 } else s
  if keyL then { s1 with resolution := s1.resolution + 1 } else s1

/-- ShellRenderer::update_system: refresh the pipeline when the dependency
signal is dirty, then apply resolution key edits.  The Nat component counts
refresh_pipeline invocations this tick; a panicking refresh aborts the
system (none). -/
def ShellRenderer.updateSystem (s : ShellRenderer) (ws : WatchedShaders)
    (build : Option Nat) (keyH keyL : Bool) : Option ShellRenderer × Nat :=
  if ws.isDependencySignaled s.shaderDependencySignal then
    match s.refreshPipeline ws build with
    | none => (none, 1)
    | some s1 => (some (s1.applyKeys keyH keyL), 1)
  else (some (s.applyKeys keyH keyL), 0)

/-! ## PostProcessing (src/render/post/mod.rs) -/

/-- The PostProcessing resource.  Its fixed GPU objects (in_image,
in_depth_image, out_image, descriptor_set, depth_sampler) are the
corresponding GpuObj constants; only the pipeline Option and the signal
vary. -/
structure PostProcessing where
  shaderDependencySignal : Nat
  pipeline : Option Nat
deriving DecidableEq, Repr

/-- PostProcessing::is_ready. -/
def PostProcessing.isReady (p : PostProcessing) : Bool :=
  p.pipeline.isSome

/-- PostProcessing::render over the backbuffer extent: when the pipeline
exists it records the barrier, bind, push-constant and dispatch calls, yet
the source returns vec![] on this path too — the sole return expression at
the end of the function serves both branches. -/
def PostProcessing.render (p : PostProcessing) (width height : Nat) :
    List Cmd × List GpuObj :=
  match p.pipeline with
  | none => ([], [])
  | some pid =>
      ([Cmd.pipelineBarrier GpuObj.postOutImage,
        Cmd.bindComputePipeline (GpuObj.postComputePipeline pid),
        Cmd.bindDescriptorSets [GpuObj.postDescriptorSet],
        Cmd.writePushConstants,
        Cmd.dispatchCompute (width / 16) (height / 16) 1],
       [])

/-- PostProcessing::refresh_pipeline: get_shader("post_comp").unwrap() into
ComputePipeline::new, no failure branch, assignment of Some on success;
mirrors ShellRenderer::refreshPipeline. -/
def PostProcessing.refreshPipeline (p : PostProcessing) (ws : WatchedShaders)
    (build : Option Nat) : Option PostProcessing :=
  match ws.getShader "post_comp" with
  | GetShaderResult.found _ =>
      match build with
      | some pid => some { p with pipeline := some pid }
      | none => none
  | _ => none

/-- PostProcessing::update_system, with the refresh invocation count. -/
def PostProcessing.updateSystem (p : PostProcessing) (ws : WatchedShaders)
    (build : Option Nat) : Option PostProcessing × Nat :=
  if ws.isDependencySignaled p.shaderDependencySignal then
    match p.refreshPipeline ws build with
    | none => (none, 1)
    | some p1 => (some p1, 1)
  else (some p, 0)

/-! ## RenderPipeline::render_system (src/render/render.rs) -/

inductive ImageLayout where
  | undefined
  | general
deriving DecidableEq, Repr

/-- The FrameConfig handed to RenderManager::set_frame_config: the backbuffer
image with its final layout, and the frame's used-object list (empty when the
builder's used_objects is never called). -/
structure FrameConfig where
  backbuffer : GpuObj
  finalLayout : ImageLayout
  usedObjects : List GpuObj
deriving DecidableEq, Repr

/-- RenderPipeline::render_system: when both subsystems are ready, render
shell then post-processing and submit one frame config naming the
post-processing output image in GENERAL layout with the collected
used objects (frame descriptor set, backbuffer depth image, then the two
render results); otherwise submit one frame config naming the backbuffer
image in UNDEFINED layout with no used objects.  The result lists every
set_frame_config call of the tick, in order. -/
def renderSystem (shell : ShellRenderer) (post : PostProcessing)
    (frameIndex width height : Nat) : List FrameConfig :=
  if shell.isReady && post.isReady then
    [{ backbuffer := GpuObj.postOutImage
       finalLayout := ImageLayout.general
       usedObjects :=
         [GpuObj.frameDescriptorSet frameIndex, GpuObj.backbufferDepthImage]
           ++ (shell.render frameIndex).2 ++ (post.render width height).2 }]
  else
    [{ backbuffer := GpuObj.backbufferImage
       finalLayout := ImageLayout.undefined
       usedObjects := [] }]

/-! ## Operation traces over the registry (for signal freshness) -/

/-- The operations application code performs against WatchedShaders. -/
inductive WsOp where
  | createSignal
  | load (name : String) (h : WatchedHandle) (sig : Nat)
  | tick (poll : String → Poll)

/-- Run a trace of operations from a state, collecting the tokens returned by
the create_dependency_signal calls; a panicking load halts the trace. -/
def runOps : WatchedShaders → List WsOp → WatchedShaders × List Nat
  | ws, [] => (ws, [])
  | ws, WsOp.createSignal :: rest =>
      let created := ws.createDependencySignal
      let tail := runOps created.2 rest
      (tail.1, created.1 :: tail.2)
  | ws, WsOp.load name h sig :: rest =>
      match ws.loadShader name h sig with
      | some ws1 => runOps ws1 rest
      | none => (ws, [])
  | ws, WsOp.tick poll :: rest => runOps (ws.updateSystem poll).1 rest

def wsA : WatchedShaders :=
  { shaders := [("a",
      { isLoaded := true, isError := false, errorMsg := "", content := some [1] })]
    shadersLoaded := ["a"]
    dependencySignals := [(0, ["a"]), (1, ["a"]), (2, ["z"])]
    dirtyDependencySignals := []
    nextSignal := 3 }

def pollA : String → Poll := fun _ =>
  { updated := true
    after :=
      { isLoaded := true, isError := false, errorMsg := "", content := some [2] } }

def wsT : WatchedShaders :=
  { shaders := [("shell_vert",
      { isLoaded := false, isError := false, errorMsg := "", content := none })]
    shadersLoaded := []
    dependencySignals := [(0, ["shell_vert"])]
    dirtyDependencySignals := []
    nextSignal := 1 }

def wsB : WatchedShaders :=
  { shaders :=
      [("a", { isLoaded := true, isError := false, errorMsg := "",
               content := some [1] }),
       ("b", { isLoaded := true, isError := false, errorMsg := "",
               content := some [2] })]
    shadersLoaded := ["a", "b"]
    dependencySignals := [(0, ["a", "b"])]
    dirtyDependencySignals := []
    nextSignal := 1 }

def pollB : String → Poll := fun n =>
  if n = "a" then
    { updated := true
      after := { isLoaded := true, isError := true, errorMsg := "boom",
                 content := some [1] } }
  else
    { updated := true
      after := { isLoaded := true, isError := false, errorMsg := "",
                 content := some [3] } }

def shellN : ShellRenderer :=
  { shaderDependencySignal := 0, pipeline := none, resolution := 128
    planeMeshVertexCount := 642 }

def postN : PostProcessing :=
  { shaderDependencySignal := 1, pipeline := none }

def shellR : ShellRenderer :=
  { shaderDependencySignal := 0, pipeline := some 3, resolution := 128
    planeMeshVertexCount := 642 }

def postR : PostProcessing :=
  { shaderDependencySignal := 1, pipeline := some 4 }

def shellC2 : ShellRenderer :=
  { shaderDependencySignal := 0, pipeline := some 3, resolution := 128
    planeMeshVertexCount := 642 }

def postC2 : PostProcessing :=
  { shaderDependencySignal := 1, pipeline := some 4 }

def wsC : WatchedShaders :=
  { shaders :=
      [("shell_vert", { isLoaded := true, isError := false, errorMsg := "",
                        content := some [1] }),
       ("shell_frag", { isLoaded := true, isError := false, errorMsg := "",
                        content := some [2] }),
       ("post_comp", { isLoaded := true, isError := false, errorMsg := "",
                       content := some [3] })]
    shadersLoaded := ["shell_vert", "shell_frag", "post_comp"]
    dependencySignals := [(0, ["shell_vert", "shell_frag"]), (1, ["post_comp"])]
    dirtyDependencySignals := [0, 1]
    nextSignal := 2 }

def wsCPartial : WatchedShaders :=
  { wsC with
      shaders :=
        [("shell_vert", { isLoaded := true, isError := false, errorMsg := "",
                          content := some [1] }),
         ("shell_frag", { isLoaded := false, isError := false, errorMsg := "",
                          content := none }),
         ("post_comp", { isLoaded := true, isError := false, errorMsg := "",
                         content := some [3] })] }

def ws0W : WatchedShaders :=
  { shaders := []
    shadersLoaded := []
    dependencySignals := [(0, [])]
    dirtyDependencySignals := []
    nextSignal := 1 }

def hW : WatchedHandle :=
  { isLoaded := false, isError := false, errorMsg := "", content := none }

def ws1W : WatchedShaders :=
  { ws0W with shaders := [("a", hW)], dependencySignals := [(0, ["a"])] }

def ws2W : WatchedShaders :=
  { ws0W with shaders := [("a", hW)], dependencySignals := [(0, ["a", "a"])] }

def pollW : String → Poll := fun _ =>
  { updated := true
    after := { isLoaded := true, isError := false, errorMsg := "",
               content := some [1] } }

def wsQuiet : WatchedShaders :=
  { wsC with dirtyDependencySignals := [] }

theorem mem_setInsert {α : Type} [DecidableEq α] (y x : α) (s : List α) :
    y ∈ setInsert x s ↔ y = x ∨ y ∈ s := by
  by_cases hx : x ∈ s
  · simp only [setInsert, if_pos hx]
    constructor
    · exact fun h => Or.inr h
    · rintro (rfl | h)
      · exact hx
      · exact h
  · simp [setInsert, hx, List.mem_cons]

theorem nodup_setInsert {α : Type} [DecidableEq α] (x : α) (s : List α)
    (hs : s.Nodup) : (setInsert x s).Nodup := by
  by_cases hx : x ∈ s
  · simpa [setInsert, hx] using hs
  · simp [setInsert, hx, List.nodup_cons, hs]

theorem extendSet_cons {α : Type} [DecidableEq α] (s : List α) (x : α)
    (xs : List α) : extendSet s (x :: xs) = extendSet (setInsert x s) xs := rfl

theorem mem_extendSet {α : Type} [DecidableEq α] (y : α) :
    ∀ (xs s : List α), y ∈ extendSet s xs ↔ y ∈ s ∨ y ∈ xs := by
  intro xs
  induction xs with
  | nil => intro s; simp [extendSet]
  | cons x xs ih =>
      intro s
      rw [extendSet_cons, ih, mem_setInsert]
      simp only [List.mem_cons]
      tauto

theorem nodup_extendSet {α : Type} [DecidableEq α] :
    ∀ (xs s : List α), s.Nodup → (extendSet s xs).Nodup := by
  intro xs
  induction xs with
  | nil => intro s hs; simpa [extendSet] using hs
  | cons x xs ih =>
      intro s hs
      rw [extendSet_cons]
      exact ih _ (nodup_setInsert x s hs)

theorem listLookup_listInsert_self {α β : Type} [DecidableEq α] (k : α) (v : β) :
    ∀ l : List (α × β), listLookup k (listInsert k v l) = some v := by
  intro l
  induction l with
  | nil => simp [listInsert, listLookup]
  | cons e rest ih =>
      by_cases h : e.1 = k
      · simp [listInsert, listLookup, h]
      · simp [listInsert, listLookup, h, ih]

theorem listInsert_overwrite {α β : Type} [DecidableEq α] (k : α) (v1 v2 : β) :
    ∀ l : List (α × β), listInsert k v2 (listInsert k v1 l) = listInsert k v2 l := by
  intro l
  induction l with
  | nil => simp [listInsert]
  | cons e rest ih =>
      by_cases h : e.1 = k
      · simp [listInsert, h]
      · simp [listInsert, h, ih]

theorem map_fst_listInsert {α β : Type} [DecidableEq α] (k : α) (v : β) :
    ∀ l : List (α × β),
      (listInsert k v l).map Prod.fst =
        if k ∈ l.map Prod.fst then l.map Prod.fst else l.map Prod.fst ++ [k] := by
  intro l
  induction l with
  | nil => simp [listInsert]
  | cons e rest ih =>
      by_cases h : e.1 = k
      · subst h
        simp [listInsert]
      · have hne : ¬ k = e.1 := fun hc => h hc.symm
        by_cases hk : k ∈ rest.map Prod.fst
        · simp [listInsert, h, ih, hk, hne]
        · simp [listInsert, h, ih, hk, hne]

theorem nodup_map_fst_listInsert {α β : Type} [DecidableEq α] (k : α) (v : β)
    (l : List (α × β)) (h : (l.map Prod.fst).Nodup) :
    ((listInsert k v l).map Prod.fst).Nodup := by
  rw [map_fst_listInsert]
  by_cases hk : k ∈ l.map Prod.fst
  · simpa [hk] using h
  · simp only [hk, if_false]
    refine List.Nodup.append h (List.nodup_singleton k) ?_
    intro a hal hak
    rw [List.mem_singleton] at hak
    subst hak
    exact hk hal

theorem mem_listInsert_of_nodup {α β : Type} [DecidableEq α] (k : α) (v : β) :
    ∀ l : List (α × β), (l.map Prod.fst).Nodup →
      ∀ e : α × β, (e ∈ listInsert k v l ↔ e = (k, v) ∨ (e ∈ l ∧ e.1 ≠ k)) := by
  intro l
  induction l with
  | nil => intro _ e; simp [listInsert]
  | cons a rest ih =>
      intro hnd e
      simp only [List.map_cons, List.nodup_cons] at hnd
      obtain ⟨ha, hrest⟩ := hnd
      by_cases h : a.1 = k
      · have hres : ∀ e' : α × β, e' ∈ rest → e'.1 ≠ k := by
          intro e' he' hc
          apply ha
          rw [h, ← hc]
          exact List.mem_map_of_mem Prod.fst he'
        simp only [listInsert, if_pos h, List.mem_cons]
        constructor
        · rintro (rfl | hm)
          · exact Or.inl rfl
          · exact Or.inr ⟨Or.inr hm, hres e hm⟩
        · rintro (rfl | ⟨hm, hne⟩)
          · exact Or.inl rfl
          · rcases hm with rfl | hm'
            · exact absurd h hne
            · exact Or.inr hm'
      · simp only [listInsert, if_neg h, List.mem_cons, ih hrest e]
        constructor
        · rintro (rfl | (rfl | ⟨hm, hne⟩))
          · exact Or.inr ⟨Or.inl rfl, h⟩
          · exact Or.inl rfl
          · exact Or.inr ⟨Or.inr hm, hne⟩
        · rintro (rfl | ⟨(rfl | hm), hne⟩)
          · exact Or.inr (Or.inl rfl)
          · exact Or.inl rfl
          · exact Or.inr (Or.inr ⟨hm, hne⟩)

theorem mem_iff_listLookup_of_nodup {α β : Type} [DecidableEq α] :
    ∀ l : List (α × β), (l.map Prod.fst).Nodup →
      ∀ (k : α) (v : β), ((k, v) ∈ l ↔ listLookup k l = some v) := by
  intro l
  induction l with
  | nil => intro _ k v; simp [listLookup]
  | cons a rest ih =>
      obtain ⟨a1, a2⟩ := a
      intro hnd k v
      simp only [List.map_cons, List.nodup_cons] at hnd
      obtain ⟨ha, hrest⟩ := hnd
      by_cases h : a1 = k
      · subst h
        have hlk : listLookup a1 ((a1, a2) :: rest) = some a2 := by
          simp [listLookup]
        rw [hlk]
        simp only [List.mem_cons, Option.some.injEq, Prod.mk.injEq, true_and]
        constructor
        · rintro (rfl | hm)
          · rfl
          · exact absurd (List.mem_map_of_mem Prod.fst hm) ha
        · intro hv
          exact Or.inl hv.symm
      · have hlk : listLookup k ((a1, a2) :: rest) = listLookup k rest := by
          simp [listLookup, h]
        rw [hlk, ← ih hrest k v]
        simp only [List.mem_cons]
        constructor
        · rintro (hv | hm)
          · injection hv with h1 h2
            exact absurd h1.symm h
          · exact hm
        · exact fun hm => Or.inr hm

theorem tickStep_loaded (poll : String → Poll) (deps : List (Nat × List String))
    (acc : TickAcc) (e : String × WatchedHandle) :
    (tickStep poll deps acc e).loaded =
      if e.2.isLoaded && !(decide (e.1 ∈ acc.loaded)) then e.1 :: acc.loaded
      else acc.loaded := by
  unfold tickStep
  by_cases h1 :
      ((poll e.1).updated || (e.2.isLoaded && !(decide (e.1 ∈ acc.loaded)))) = true
  · by_cases h2 : (poll e.1).after.isError = true
    · simp [h1, h2]
    · simp [h1, h2]
  · simp [h1]

theorem tickStep_dirty (poll : String → Poll) (deps : List (Nat × List String))
    (acc : TickAcc) (e : String × WatchedHandle) :
    (tickStep poll deps acc e).dirty =
      if changedOk poll acc.loaded e then
        extendSet acc.dirty (signalsContaining e.1 deps)
      else acc.dirty := by
  unfold tickStep changedOk changed
  by_cases h1 :
      ((poll e.1).updated || (e.2.isLoaded && !(decide (e.1 ∈ acc.loaded)))) = true
  · by_cases h2 : (poll e.1).after.isError = true
    · simp [h1, h2]
    · simp [h1, h2]
  · simp [h1]

theorem tickStep_log (poll : String → Poll) (deps : List (Nat × List String))
    (acc : TickAcc) (e : String × WatchedHandle) :
    (tickStep poll deps acc e).log =
      if changedErr poll acc.loaded e then
        acc.log ++ [(e.1, (poll e.1).after.errorMsg)]
      else acc.log := by
  unfold tickStep changedErr changed
  by_cases h1 :
      ((poll e.1).updated || (e.2.isLoaded && !(decide (e.1 ∈ acc.loaded)))) = true
  · by_cases h2 : (poll e.1).after.isError = true
    · simp [h1, h2]
    · simp [h1, h2]
  · simp [h1]

theorem changed_congr (poll : String → Poll) (l1 l2 : List String)
    (e : String × WatchedHandle) (h : e.1 ∈ l1 ↔ e.1 ∈ l2) :
    changed poll l1 e = changed poll l2 e := by
  unfold changed
  rw [decide_eq_decide.mpr h]

theorem changedOk_congr (poll : String → Poll) (l1 l2 : List String)
    (e : String × WatchedHandle) (h : e.1 ∈ l1 ↔ e.1 ∈ l2) :
    changedOk poll l1 e = changedOk poll l2 e := by
  unfold changedOk
  rw [changed_congr poll l1 l2 e h]

theorem changedErr_congr (poll : String → Poll) (l1 l2 : List String)
    (e : String × WatchedHandle) (h : e.1 ∈ l1 ↔ e.1 ∈ l2) :
    changedErr poll l1 e = changedErr poll l2 e := by
  unfold changedErr
  rw [changed_congr poll l1 l2 e h]

/-- During the per-shader loop, the evolving shaders_loaded set agrees with
the pre-tick one on every shader key not yet processed (keys are HashMap
keys, hence pairwise distinct). -/
theorem tickStep_loaded_pres (poll : String → Poll)
    (deps : List (Nat × List String)) (acc : TickAcc)
    (e e' : String × WatchedHandle) (hne : e'.1 ≠ e.1) (loaded0 : List String)
    (h : e'.1 ∈ acc.loaded ↔ e'.1 ∈ loaded0) :
    (e'.1 ∈ (tickStep poll deps acc e).loaded ↔ e'.1 ∈ loaded0) := by
  rw [tickStep_loaded]
  by_cases hc : (e.2.isLoaded && !(decide (e.1 ∈ acc.loaded))) = true
  · simp only [hc, if_true, List.mem_cons]
    constructor
    · rintro (hx | hx)
      · exact absurd hx hne
      · exact h.mp hx
    · intro hx
      exact Or.inr (h.mpr hx)
  · simp only [hc, if_false]
    exact h

/-- Membership in the dirty set built by the update_system loop: a signal is
dirty iff it was already dirty or some processed shader changed without error
and the signal's dependency list contains that shader's name. -/
theorem foldl_tickStep_dirty_mem (poll : String → Poll)
    (deps : List (Nat × List String)) (loaded0 : List String) :
    ∀ (l : List (String × WatchedHandle)) (acc : TickAcc),
      (l.map Prod.fst).Nodup →
      (∀ e ∈ l, (e.1 ∈ acc.loaded ↔ e.1 ∈ loaded0)) →
      ∀ sig : Nat,
        (sig ∈ (l.foldl (tickStep poll deps) acc).dirty ↔
          sig ∈ acc.dirty ∨ ∃ e ∈ l, changedOk poll loaded0 e = true ∧
            sig ∈ signalsContaining e.1 deps) := by
  intro l
  induction l with
  | nil => intro acc _ _ sig; simp
  | cons e l ih =>
      intro acc hnd hld sig
      simp only [List.map_cons, List.nodup_cons] at hnd
      obtain ⟨hkey, hnd'⟩ := hnd
      have hmem_e : e.1 ∈ acc.loaded ↔ e.1 ∈ loaded0 :=
        hld e (List.mem_cons_self e l)
      have hld' : ∀ e' ∈ l, (e'.1 ∈ (tickStep poll deps acc e).loaded ↔
          e'.1 ∈ loaded0) := by
        intro e' he'
        have hne : e'.1 ≠ e.1 := by
          intro hc
          exact hkey (hc ▸ List.mem_map_of_mem Prod.fst he')
        exact tickStep_loaded_pres poll deps acc e e' hne loaded0
          (hld e' (List.mem_cons_of_mem e he'))
      rw [List.foldl_cons, ih (tickStep poll deps acc e) hnd' hld' sig]
      have hco : changedOk poll acc.loaded e = changedOk poll loaded0 e :=
        changedOk_congr poll acc.loaded loaded0 e hmem_e
      rw [tickStep_dirty, hco]
      by_cases hc : changedOk poll loaded0 e = true
      · simp only [hc, if_true, mem_extendSet]
        constructor
        · rintro ((hd | hs) | ⟨e', he', hok, hsig⟩)
          · exact Or.inl hd
          · exact Or.inr ⟨e, List.mem_cons_self e l, hc, hs⟩
          · exact Or.inr ⟨e', List.mem_cons_of_mem e he', hok, hsig⟩
        · rintro (hd | ⟨e', he', hok, hsig⟩)
          · exact Or.inl (Or.inl hd)
          · rcases List.mem_cons.mp he' with rfl | he''
            · exact Or.inl (Or.inr hsig)
            · exact Or.inr ⟨e', he'', hok, hsig⟩
      · simp only [hc, if_false]
        constructor
        · rintro (hd | ⟨e', he', hok, hsig⟩)
          · exact Or.inl hd
          · exact Or.inr ⟨e', List.mem_cons_of_mem e he', hok, hsig⟩
        · rintro (hd | ⟨e', he', hok, hsig⟩)
          · exact Or.inl hd
          · rcases List.mem_cons.mp he' with rfl | he''
            · rw [hok] at hc
              exact absurd rfl hc
            · exact Or.inr ⟨e', he'', hok, hsig⟩

/-- The diagnostics printed by the update_system loop: exactly one
(name, error) line per shader that changed this tick with an erroring
post-update handle, in shader order. -/
theorem foldl_tickStep_log (poll : String → Poll)
    (deps : List (Nat × List String)) (loaded0 : List String) :
    ∀ (l : List (String × WatchedHandle)) (acc : TickAcc),
      (l.map Prod.fst).Nodup →
      (∀ e ∈ l, (e.1 ∈ acc.loaded ↔ e.1 ∈ loaded0)) →
      (l.foldl (tickStep poll deps) acc).log =
        acc.log ++ (l.filter (fun e => changedErr poll loaded0 e)).map
          (fun e => (e.1, (poll e.1).after.errorMsg)) := by
  intro l
  induction l with
  | nil => intro acc _ _; simp
  | cons e l ih =>
      intro acc hnd hld
      simp only [List.map_cons, List.nodup_cons] at hnd
      obtain ⟨hkey, hnd'⟩ := hnd
      have hmem_e : e.1 ∈ acc.loaded ↔ e.1 ∈ loaded0 :=
        hld e (List.mem_cons_self e l)
      have hld' : ∀ e' ∈ l, (e'.1 ∈ (tickStep poll deps acc e).loaded ↔
          e'.1 ∈ loaded0) := by
        intro e' he'
        have hne : e'.1 ≠ e.1 := by
          intro hc
          exact hkey (hc ▸ List.mem_map_of_mem Prod.fst he')
        exact tickStep_loaded_pres poll deps acc e e' hne loaded0
          (hld e' (List.mem_cons_of_mem e he'))
      rw [List.foldl_cons, ih (tickStep poll deps acc e) hnd' hld']
      have hce : changedErr poll acc.loaded e = changedErr poll loaded0 e :=
        changedErr_congr poll acc.loaded loaded0 e hmem_e
      rw [tickStep_log, hce]
      by_cases hc : changedErr poll loaded0 e = true
      · simp [hc, List.filter_cons, List.append_assoc]
      · simp [hc, List.filter_cons]

/-- The dirty set built by the update_system loop never holds duplicates. -/
theorem foldl_tickStep_dirty_nodup (poll : String → Poll)
    (deps : List (Nat × List String)) :
    ∀ (l : List (String × WatchedHandle)) (acc : TickAcc),
      acc.dirty.Nodup → (l.foldl (tickStep poll deps) acc).dirty.Nodup := by
  intro l
  induction l with
  | nil => intro acc h; simpa using h
  | cons e l ih =>
      intro acc h
      rw [List.foldl_cons]
      apply ih
      rw [tickStep_dirty]
      by_cases hc : changedOk poll acc.loaded e = true
      · simp only [hc, if_true]
        exact nodup_extendSet _ _ h
      · simpa [hc] using h

theorem mem_signalsContaining (sig : Nat) (name : String)
    (l : List (Nat × List String)) :
    sig ∈ signalsContaining name l ↔ ∃ names, (sig, names) ∈ l ∧ name ∈ names := by
  unfold signalsContaining
  simp only [List.mem_map, List.mem_filter, decide_eq_true_eq]
  constructor
  · rintro ⟨e, ⟨he, hname⟩, rfl⟩
    exact ⟨e.2, by cases e; exact he, hname⟩
  · rintro ⟨names, hm, hname⟩
    exact ⟨(sig, names), ⟨hm, hname⟩, rfl⟩

theorem mem_signalsContaining_lookup (sig : Nat) (name : String)
    (l : List (Nat × List String)) (hnd : (l.map Prod.fst).Nodup) :
    sig ∈ signalsContaining name l ↔
      ∃ names, listLookup sig l = some names ∧ name ∈ names := by
  rw [mem_signalsContaining]
  constructor
  · rintro ⟨names, hm, hn⟩
    exact ⟨names, (mem_iff_listLookup_of_nodup l hnd sig names).mp hm, hn⟩
  · rintro ⟨names, hl, hn⟩
    exact ⟨names, (mem_iff_listLookup_of_nodup l hnd sig names).mpr hl, hn⟩

/-- Characterization of the dirty set right after update_system, against the
pre-tick state. -/
theorem updateSystem_signaled_iff (ws : WatchedShaders) (poll : String → Poll)
    (hnd : (ws.shaders.map Prod.fst).Nodup) (sig : Nat) :
    ((ws.updateSystem poll).1.isDependencySignaled sig = true ↔
      ∃ e ∈ ws.shaders, changedOk poll ws.shadersLoaded e = true ∧
        sig ∈ signalsContaining e.1 ws.dependencySignals) := by
  have h := foldl_tickStep_dirty_mem poll ws.dependencySignals ws.shadersLoaded
    ws.shaders { loaded := ws.shadersLoaded, dirty := [], log := [] } hnd
    (fun e _ => Iff.rfl) sig
  simp only [List.not_mem_nil, false_or] at h
  unfold WatchedShaders.isDependencySignaled
  rw [decide_eq_true_eq]
  exact h

/-- The tracked shader names are unchanged by update_system (handles are
updated in place under the same keys). -/
theorem updateSystem_map_fst (ws : WatchedShaders) (poll : String → Poll) :
    (ws.updateSystem poll).1.shaders.map Prod.fst = ws.shaders.map Prod.fst := by
  show (ws.shaders.map fun e => (e.1, (poll e.1).after)).map Prod.fst = _
  rw [List.map_map]
  rfl

/-- The diagnostics of one update_system tick. -/
theorem updateSystem_log (ws : WatchedShaders) (poll : String → Poll)
    (hnd : (ws.shaders.map Prod.fst).Nodup) :
    (ws.updateSystem poll).2 =
      (ws.shaders.filter (fun e => changedErr poll ws.shadersLoaded e)).map
        (fun e => (e.1, (poll e.1).after.errorMsg)) := by
  have h := foldl_tickStep_log poll ws.dependencySignals ws.shadersLoaded
    ws.shaders { loaded := ws.shadersLoaded, dirty := [], log := [] } hnd
    (fun e _ => Iff.rfl)
  simpa using h

theorem loadShader_nextSignal (ws ws1 : WatchedShaders) (name : String)
    (h : WatchedHandle) (sig : Nat)
    (hl : ws.loadShader name h sig = some ws1) :
    ws1.nextSignal = ws.nextSignal := by
  unfold WatchedShaders.loadShader at hl
  cases hd : listLookup sig ws.dependencySignals with
  | none => rw [hd] at hl; simp at hl
  | some deps =>
      rw [hd] at hl
      simp only [Option.some.injEq] at hl
      rw [← hl]

theorem updateSystem_nextSignal (ws : WatchedShaders) (poll : String → Poll) :
    (ws.updateSystem poll).1.nextSignal = ws.nextSignal := rfl

/-- Every signal token a trace returns is at least the starting counter. -/
theorem runOps_tokens_lb :
    ∀ (ops : List WsOp) (ws : WatchedShaders) (t : Nat),
      t ∈ (runOps ws ops).2 → ws.nextSignal ≤ t := by
  intro ops
  induction ops with
  | nil => intro ws t ht; simp [runOps] at ht
  | cons op rest ih =>
      intro ws t ht
      cases op with
      | createSignal =>
          simp only [runOps, List.mem_cons] at ht
          rcases ht with rfl | ht
          · exact Nat.le_refl _
          · have := ih (ws.createDependencySignal).2 t ht
            have hn : (ws.createDependencySignal).2.nextSignal =
                ws.nextSignal + 1 := rfl
            omega
      | load name h sig =>
          simp only [runOps] at ht
          cases hl : ws.loadShader name h sig with
          | none => rw [hl] at ht; simp at ht
          | some ws1 =>
              rw [hl] at ht
              have := ih ws1 t ht
              rw [loadShader_nextSignal ws ws1 name h sig hl] at this
              exact this
      | tick poll =>
          simp only [runOps] at ht
          have := ih (ws.updateSystem poll).1 t ht
          rw [updateSystem_nextSignal] at this
          exact this

/-- The tokens returned along any trace are pairwise distinct. -/
theorem runOps_tokens_nodup :
    ∀ (ops : List WsOp) (ws : WatchedShaders), ((runOps ws ops).2).Nodup := by
  intro ops
  induction ops with
  | nil => intro ws; simp [runOps]
  | cons op rest ih =>
      intro ws
      cases op with
      | createSignal =>
          simp only [runOps, List.nodup_cons]
          refine ⟨?_, ih (ws.createDependencySignal).2⟩
          intro hmem
          have hlb := runOps_tokens_lb rest (ws.createDependencySignal).2
            ws.nextSignal hmem
          have hn : (ws.createDependencySignal).2.nextSignal =
              ws.nextSignal + 1 := rfl
          omega
      | load name h sig =>
          simp only [runOps]
          cases hl : ws.loadShader name h sig with
          | none => simp
          | some ws1 => exact ih ws1
      | tick poll => exact ih (ws.updateSystem poll).1

theorem bool_eq_of_iff (a b : Bool) (h : a = true ↔ b = true) : a = b := by
  cases a <;> cases b <;> simp_all

theorem applyKeys_pipeline (s : ShellRenderer) (keyH keyL : Bool) :
    (s.applyKeys keyH keyL).pipeline = s.pipeline := by
  unfold ShellRenderer.applyKeys
  by_cases h1 : keyH = true <;> by_cases h2 : keyL = true <;> simp [h1, h2]

/-- loadShader on a registered signal: the resulting state explicitly. -/
theorem loadShader_some (ws : WatchedShaders) (name : String)
    (h : WatchedHandle) (sig : Nat) (deps : List String)
    (hd : listLookup sig ws.dependencySignals = some deps) :
    ws.loadShader name h sig =
      some { ws with
        shaders := listInsert name h ws.shaders
        dependencySignals :=
          listInsert sig (deps ++ [name]) ws.dependencySignals } := by
  unfold WatchedShaders.loadShader
  rw [hd]

/-- Replacing a signal's dependency list with one holding the same names
does not change dirty-relevant membership. -/
theorem mem_signalsContaining_listInsert_congr (sig sig' : Nat)
    (v1 v2 : List String) (l : List (Nat × List String))
    (hnd : (l.map Prod.fst).Nodup) (name : String)
    (hv : name ∈ v1 ↔ name ∈ v2) :
    (sig' ∈ signalsContaining name (listInsert sig v1 l) ↔
      sig' ∈ signalsContaining name (listInsert sig v2 l)) := by
  rw [mem_signalsContaining, mem_signalsContaining]
  constructor
  · rintro ⟨names, hm, hn⟩
    rcases (mem_listInsert_of_nodup sig v1 l hnd (sig', names)).mp hm with
      heq | ⟨hm', hne⟩
    · injection heq with h1 h2
      exact ⟨v2, (mem_listInsert_of_nodup sig v2 l hnd (sig', v2)).mpr
        (Or.inl (by rw [h1])), hv.mp (h2 ▸ hn)⟩
    · exact ⟨names, (mem_listInsert_of_nodup sig v2 l hnd (sig', names)).mpr
        (Or.inr ⟨hm', hne⟩), hn⟩
  · rintro ⟨names, hm, hn⟩
    rcases (mem_listInsert_of_nodup sig v2 l hnd (sig', names)).mp hm with
      heq | ⟨hm', hne⟩
    · injection heq with h1 h2
      exact ⟨v1, (mem_listInsert_of_nodup sig v1 l hnd (sig', v1)).mpr
        (Or.inl (by rw [h1])), hv.mpr (h2 ▸ hn)⟩
    · exact ⟨names, (mem_listInsert_of_nodup sig v1 l hnd (sig', names)).mpr
        (Or.inr ⟨hm', hne⟩), hn⟩

/-! ## Claim theorems -/

/-- C1: after WatchedShaders::update_system runs for a tick, a dependency
signal is dirty iff some shader name in its dependency list changed this tick
(newly loaded for the first time, or reloaded) without error; the dirty set
is cleared at the start of every tick, so after a further tick in which no
tracked shader changes, every signal reads not-dirty again — in particular
two signals sharing a reloading shader are both dirty at tick T and clean at
tick T+1, and a signal none of whose shaders changed is never dirty. -/
theorem dirty_set_correctness_per_tick
    (ws : WatchedShaders) (poll pollQ : String → Poll)
    (hsh : (ws.shaders.map Prod.fst).Nodup)
    (hdep : (ws.dependencySignals.map Prod.fst).Nodup) :
    (∀ sig : Nat,
        ((ws.updateSystem poll).1.isDependencySignaled sig = true ↔
          ∃ names, listLookup sig ws.dependencySignals = some names ∧
            ∃ e ∈ ws.shaders, changedOk poll ws.shadersLoaded e = true ∧
              e.1 ∈ names)) ∧
    ((∀ e ∈ (ws.updateSystem poll).1.shaders,
        changed pollQ (ws.updateSystem poll).1.shadersLoaded e = false) →
      ∀ sig : Nat,
        ((ws.updateSystem poll).1.updateSystem pollQ).1.isDependencySignaled
          sig = false) := by
  constructor
  · intro sig
    rw [updateSystem_signaled_iff ws poll hsh sig]
    constructor
    · rintro ⟨e, he, hok, hsig⟩
      rw [mem_signalsContaining_lookup sig e.1 ws.dependencySignals hdep] at hsig
      obtain ⟨names, hl, hn⟩ := hsig
      exact ⟨names, hl, e, he, hok, hn⟩
    · rintro ⟨names, hl, e, he, hok, hn⟩
      refine ⟨e, he, hok, ?_⟩
      rw [mem_signalsContaining_lookup sig e.1 ws.dependencySignals hdep]
      exact ⟨names, hl, hn⟩
  · intro hquiet sig
    have hsh' : ((ws.updateSystem poll).1.shaders.map Prod.fst).Nodup := by
      rw [updateSystem_map_fst]
      exact hsh
    have hiff := updateSystem_signaled_iff (ws.updateSystem poll).1 pollQ hsh' sig
    cases hb : ((ws.updateSystem poll).1.updateSystem pollQ).1.isDependencySignaled
        sig with
    | false => rfl
    | true =>
        obtain ⟨e, he, hok, -⟩ := hiff.mp hb
        have hch := hquiet e he
        unfold changedOk at hok
        rw [hch] at hok
        simp at hok

theorem dirty_set_correctness_per_tick_witness :
    (wsA.updateSystem pollA).1.isDependencySignaled 0 = true :=
  ((dirty_set_correctness_per_tick wsA pollA pollA (by decide) (by decide)).1
    0).mpr
    ⟨["a"], by decide,
     ("a", { isLoaded := true, isError := false, errorMsg := "",
             content := some [1] }),
     by decide, by decide, by decide⟩

/-- C9: create_dependency_signal allocates a token distinct from every token
returned by previous calls along any operation trace from the initial state,
registers it with an empty dependency list, and is a total function (no
failure mode in its type or body). -/
theorem signal_creation_fresh_unique :
    (∀ ops : List WsOp, ((runOps WatchedShaders.new ops).2).Nodup) ∧
    (∀ ws : WatchedShaders,
      listLookup (ws.createDependencySignal).1
        (ws.createDependencySignal).2.dependencySignals = some []) := by
  constructor
  · intro ops
    exact runOps_tokens_nodup ops WatchedShaders.new
  · intro ws
    unfold WatchedShaders.createDependencySignal
    exact listLookup_listInsert_self ws.nextSignal [] ws.dependencySignals

/-- C10: get_shader is total on untracked names (plain None), but on a
tracked name whose watched handle has not yet produced content it unwraps
the handle's inner Option and panics; a tracked name with content yields the
content.  get_shader is therefore only safe once the named shader has
completed at least one successful load. -/
theorem get_shader_totality (ws : WatchedShaders) (name : String) :
    (listLookup name ws.shaders = none →
      ws.getShader name = GetShaderResult.notTracked) ∧
    (∀ h : WatchedHandle, listLookup name ws.shaders = some h →
      h.content = none → ws.getShader name = GetShaderResult.panicked) ∧
    (∀ (h : WatchedHandle) (v : Spirv), listLookup name ws.shaders = some h →
      h.content = some v → ws.getShader name = GetShaderResult.found v) := by
  refine ⟨?_, ?_, ?_⟩
  · intro hl
    unfold WatchedShaders.getShader
    rw [hl]
  · intro h hl hc
    unfold WatchedShaders.getShader
    rw [hl]
    dsimp only
    rw [hc]
  · intro h v hl hc
    unfold WatchedShaders.getShader
    rw [hl]
    dsimp only
    rw [hc]

theorem get_shader_totality_witness :
    wsT.getShader "missing" = GetShaderResult.notTracked ∧
    wsT.getShader "shell_vert" = GetShaderResult.panicked :=
  ⟨(get_shader_totality wsT "missing").1 (by decide),
   (get_shader_totality wsT "shell_vert").2.1
     { isLoaded := false, isError := false, errorMsg := "", content := none }
     (by decide) rfl⟩

/-- C4 counterexample: shader "a" of signal 0 errors on reload this tick,
signal 0's dependency list contains "a", yet signal 0 IS inserted into the
dirty set, because its other member "b" reloaded successfully — refuting the
claim that no signal containing an erroring shader's name is inserted that
tick. -/
theorem failed_reload_dirty_counterexample :
    changedErr pollB wsB.shadersLoaded
      ("a", { isLoaded := true, isError := false, errorMsg := "",
              content := some [1] }) = true ∧
    "a" ∈ (listLookup 0 wsB.dependencySignals).getD [] ∧
    (wsB.updateSystem pollB).1.isDependencySignaled 0 = true := by decide

/-- C4 amended: an erroring reload contributes no dirty insertion — a signal
is in the dirty set only on account of some member shader that changed
without error (so a signal all of whose changed members errored stays clean)
— and the tick prints exactly one diagnostic naming the shader and its error
for every tracked shader whose reload attempt errored. -/
theorem failed_reload_no_dirty_amended (ws : WatchedShaders)
    (poll : String → Poll) (hsh : (ws.shaders.map Prod.fst).Nodup) :
    (∀ sig : Nat, (ws.updateSystem poll).1.isDependencySignaled sig = true →
      ∃ e ∈ ws.shaders, changedOk poll ws.shadersLoaded e = true ∧
        sig ∈ signalsContaining e.1 ws.dependencySignals) ∧
    ((ws.updateSystem poll).2 =
      (ws.shaders.filter (fun e => changedErr poll ws.shadersLoaded e)).map
        (fun e => (e.1, (poll e.1).after.errorMsg))) := by
  constructor
  · intro sig hs
    exact (updateSystem_signaled_iff ws poll hsh sig).mp hs
  · exact updateSystem_log ws poll hsh

theorem failed_reload_no_dirty_amended_witness :
    (wsB.updateSystem pollB).2 = [("a", "boom")] := by
  have h := (failed_reload_no_dirty_amended wsB pollB (by decide)).2
  rw [h]
  decide

/-- C5: a subsystem whose pipeline Option is None is a complete no-op when
rendered: no command-buffer calls are recorded and the returned used-object
list is empty, for both ShellRenderer and PostProcessing. -/
theorem not_ready_render_noop (s : ShellRenderer) (p : PostProcessing)
    (frameIndex width height : Nat)
    (hs : s.isReady = false) (hp : p.isReady = false) :
    s.render frameIndex = ([], []) ∧ p.render width height = ([], []) := by
  constructor
  · unfold ShellRenderer.isReady at hs
    cases hpl : s.pipeline with
    | none => simp [ShellRenderer.render, hpl]
    | some pid => rw [hpl] at hs; simp at hs
  · unfold PostProcessing.isReady at hp
    cases hpl : p.pipeline with
    | none => simp [PostProcessing.render, hpl]
    | some pid => rw [hpl] at hp; simp at hp

theorem not_ready_render_noop_witness :
    shellN.render 0 = ([], []) ∧ postN.render 2560 1440 = ([], []) :=
  not_ready_render_noop shellN postN 0 2560 1440 rfl rfl

/-- C6: every run of RenderPipeline::render_system calls set_frame_config
exactly once — with the post-processing output image in GENERAL layout and
the collected used-object lists when both subsystems are ready, and with the
backbuffer image in UNDEFINED layout and no used objects otherwise. -/
theorem frame_submission_never_skipped (shell : ShellRenderer)
    (post : PostProcessing) (frameIndex width height : Nat) :
    (renderSystem shell post frameIndex width height).length = 1 ∧
    (shell.isReady = true → post.isReady = true →
      renderSystem shell post frameIndex width height =
        [{ backbuffer := GpuObj.postOutImage
           finalLayout := ImageLayout.general
           usedObjects :=
             [GpuObj.frameDescriptorSet frameIndex,
              GpuObj.backbufferDepthImage]
               ++ (shell.render frameIndex).2
               ++ (post.render width height).2 }]) ∧
    ((shell.isReady && post.isReady) = false →
      renderSystem shell post frameIndex width height =
        [{ backbuffer := GpuObj.backbufferImage
           finalLayout := ImageLayout.undefined
           usedObjects := [] }]) := by
  refine ⟨?_, ?_, ?_⟩
  · unfold renderSystem
    by_cases h : (shell.isReady && post.isReady) = true
    · simp [h]
    · simp [h]
  · intro h1 h2
    simp [renderSystem, h1, h2]
  · intro h
    simp [renderSystem, h]

theorem frame_submission_never_skipped_witness :
    renderSystem shellR postR 0 2560 1440 =
      [{ backbuffer := GpuObj.postOutImage
         finalLayout := ImageLayout.general
         usedObjects :=
           [GpuObj.frameDescriptorSet 0, GpuObj.backbufferDepthImage]
             ++ (shellR.render 0).2 ++ (postR.render 2560 1440).2 }] :=
  (frame_submission_never_skipped shellR postR 0 2560 1440).2.1 rfl rfl

/-- C2, evaluated at ready subsystems: ShellRenderer::render records commands
binding its graphics pipeline and the frame descriptor set but returns
neither in its used-object list, and PostProcessing::render records a
non-empty command sequence referencing its compute pipeline and descriptor
set yet returns the empty used-object list — the returned sets do not cover
the resources the emitted commands reference. -/
theorem used_objects_incomplete_at_input :
    (GpuObj.shellGraphicsPipeline 3 ∈ refsOfCmds (shellC2.render 0).1 ∧
     GpuObj.shellGraphicsPipeline 3 ∉ (shellC2.render 0).2 ∧
     GpuObj.frameDescriptorSet 0 ∈ refsOfCmds (shellC2.render 0).1 ∧
     GpuObj.frameDescriptorSet 0 ∉ (shellC2.render 0).2) ∧
    ((postC2.render 2560 1440).1 ≠ [] ∧
     GpuObj.postComputePipeline 4 ∈ refsOfCmds (postC2.render 2560 1440).1 ∧
     GpuObj.postDescriptorSet ∈ refsOfCmds (postC2.render 2560 1440).1 ∧
     (postC2.render 2560 1440).2 = []) := by decide

/-- C3 counterexample: at a state where both subsystems are ready and the
dependency signal is dirty, a failed pipeline construction makes
refresh_pipeline panic (there is no post-attempt state), instead of retaining
the old pipeline, surfacing an error and keeping the process alive; likewise
a refresh while one of the two shell shader handles has no content yet
panics inside get_shader(..).unwrap() even though construction would have
succeeded. -/
theorem failsafe_rebuild_counterexample :
    shellR.isReady = true ∧
    wsC.isDependencySignaled shellR.shaderDependencySignal = true ∧
    shellR.refreshPipeline wsC none = none ∧
    postR.isReady = true ∧
    postR.refreshPipeline wsC none = none ∧
    shellR.refreshPipeline wsCPartial (some 9) = none := by decide

/-- C3 amended: the source's refresh_pipeline has no failure handling — a
failed shader fetch or a failed pipeline construction panics the process, so
no post-failure state exists; in every execution in which refresh_pipeline
returns, the build succeeded, the new pipeline object fully replaces the old
in place, and the subsystem is ready (hence a subsystem that was ready never
returns to the empty-slot state within a surviving process). -/
theorem failsafe_rebuild_amended (s : ShellRenderer) (p : PostProcessing)
    (ws : WatchedShaders) (build : Option Nat) :
    (∀ s' : ShellRenderer, s.refreshPipeline ws build = some s' →
      s'.isReady = true ∧
        ∃ pid, build = some pid ∧ s' = { s with pipeline := some pid }) ∧
    (∀ p' : PostProcessing, p.refreshPipeline ws build = some p' →
      p'.isReady = true ∧
        ∃ pid, build = some pid ∧ p' = { p with pipeline := some pid }) ∧
    (build = none →
      s.refreshPipeline ws build = none ∧ p.refreshPipeline ws build = none) := by
  refine ⟨?_, ?_, ?_⟩
  · intro s' hs
    unfold ShellRenderer.refreshPipeline at hs
    cases hv : ws.getShader "shell_vert" with
    | found v =>
        rw [hv] at hs
        cases hf : ws.getShader "shell_frag" with
        | found w =>
            rw [hf] at hs
            cases build with
            | none => simp at hs
            | some pid =>
                simp only [Option.some.injEq] at hs
                subst hs
                exact ⟨rfl, pid, rfl, rfl⟩
        | notTracked => rw [hf] at hs; simp at hs
        | panicked => rw [hf] at hs; simp at hs
    | notTracked => rw [hv] at hs; simp at hs
    | panicked => rw [hv] at hs; simp at hs
  · intro p' hp
    unfold PostProcessing.refreshPipeline at hp
    cases hc : ws.getShader "post_comp" with
    | found v =>
        rw [hc] at hp
        cases build with
        | none => simp at hp
        | some pid =>
            simp only [Option.some.injEq] at hp
            subst hp
            exact ⟨rfl, pid, rfl, rfl⟩
    | notTracked => rw [hc] at hp; simp at hp
    | panicked => rw [hc] at hp; simp at hp
  · rintro rfl
    constructor
    · unfold ShellRenderer.refreshPipeline
      cases ws.getShader "shell_vert" with
      | found v =>
          cases ws.getShader "shell_frag" with
          | found w => rfl
          | notTracked => rfl
          | panicked => rfl
      | notTracked => rfl
      | panicked => rfl
    · unfold PostProcessing.refreshPipeline
      cases ws.getShader "post_comp" with
      | found v => rfl
      | notTracked => rfl
      | panicked => rfl

theorem failsafe_rebuild_amended_witness :
    ({ shaderDependencySignal := 0, pipeline := some 9, resolution := 128,
       planeMeshVertexCount := 642 } : ShellRenderer).isReady = true :=
  ((failsafe_rebuild_amended shellR postR wsC (some 9)).1
    { shaderDependencySignal := 0, pipeline := some 9, resolution := 128,
      planeMeshVertexCount := 642 } (by decide)).1

/-- Two registry states with the same shaders and loaded set, whose
dependency lists put each name under the same signals, produce the same
dirty verdicts after a tick. -/
theorem signaled_eq_of_equiv (ws1 ws2 : WatchedShaders) (poll : String → Poll)
    (sig' : Nat)
    (hsh1 : (ws1.shaders.map Prod.fst).Nodup)
    (hsh2 : (ws2.shaders.map Prod.fst).Nodup)
    (hs : ws2.shaders = ws1.shaders)
    (hload : ws2.shadersLoaded = ws1.shadersLoaded)
    (hdep : ∀ (n : String) (s : Nat),
      s ∈ signalsContaining n ws2.dependencySignals ↔
        s ∈ signalsContaining n ws1.dependencySignals) :
    (ws2.updateSystem poll).1.isDependencySignaled sig' =
      (ws1.updateSystem poll).1.isDependencySignaled sig' := by
  apply bool_eq_of_iff
  rw [updateSystem_signaled_iff ws2 poll hsh2 sig',
    updateSystem_signaled_iff ws1 poll hsh1 sig', hs, hload]
  constructor
  · rintro ⟨e, he, hok, hsig⟩
    exact ⟨e, he, hok, (hdep e.1 sig').mp hsig⟩
  · rintro ⟨e, he, hok, hsig⟩
    exact ⟨e, he, hok, (hdep e.1 sig').mpr hsig⟩

theorem shellRefresh_isReady (s : ShellRenderer) (ws : WatchedShaders)
    (build : Option Nat) (s' : ShellRenderer)
    (h : s.refreshPipeline ws build = some s') : s'.isReady = true := by
  unfold ShellRenderer.refreshPipeline at h
  cases hv : ws.getShader "shell_vert" with
  | found v =>
      rw [hv] at h
      cases hf : ws.getShader "shell_frag" with
      | found w =>
          rw [hf] at h
          cases build with
          | none => simp at h
          | some pid =>
              simp only [Option.some.injEq] at h
              subst h
              rfl
      | notTracked => rw [hf] at h; simp at h
      | panicked => rw [hf] at h; simp at h
  | notTracked => rw [hv] at h; simp at h
  | panicked => rw [hv] at h; simp at h

theorem postRefresh_isReady (p : PostProcessing) (ws : WatchedShaders)
    (build : Option Nat) (p' : PostProcessing)
    (h : p.refreshPipeline ws build = some p') : p'.isReady = true := by
  unfold PostProcessing.refreshPipeline at h
  cases hc : ws.getShader "post_comp" with
  | found v =>
      rw [hc] at h
      cases build with
      | none => simp at h
      | some pid =>
          simp only [Option.some.injEq] at h
          subst h
          rfl
  | notTracked => rw [hc] at h; simp at h
  | panicked => rw [hc] at h; simp at h

/-- C7: duplicate registration of the same (signal, name) pair does not
change any dirty verdict; the dirty set holds a signal at most once however
many of its shaders changed in the tick; and ShellRenderer::update_system
invokes refresh_pipeline exactly once on a dirty tick and never otherwise. -/
theorem idempotent_registration_single_rebuild :
    (∀ (ws : WatchedShaders) (name : String) (h : WatchedHandle) (sig : Nat)
        (ws1 ws2 : WatchedShaders),
      (ws.shaders.map Prod.fst).Nodup →
      (ws.dependencySignals.map Prod.fst).Nodup →
      ws.loadShader name h sig = some ws1 →
      ws1.loadShader name h sig = some ws2 →
      ∀ (poll : String → Poll) (sig' : Nat),
        (ws2.updateSystem poll).1.isDependencySignaled sig' =
          (ws1.updateSystem poll).1.isDependencySignaled sig') ∧
    (∀ (ws : WatchedShaders) (poll : String → Poll) (sig : Nat),
      List.count sig (ws.updateSystem poll).1.dirtyDependencySignals ≤ 1) ∧
    (∀ (s : ShellRenderer) (ws : WatchedShaders) (build : Option Nat)
        (keyH keyL : Bool),
      (s.updateSystem ws build keyH keyL).2 =
        if ws.isDependencySignaled s.shaderDependencySignal then 1 else 0) := by
  refine ⟨?_, ?_, ?_⟩
  · intro ws name h sig ws1 ws2 hsh hdep hl1 hl2 poll sig'
    cases hd : listLookup sig ws.dependencySignals with
    | none =>
        unfold WatchedShaders.loadShader at hl1
        rw [hd] at hl1
        simp at hl1
    | some L =>
        rw [loadShader_some ws name h sig L hd] at hl1
        simp only [Option.some.injEq] at hl1
        have hd1 : listLookup sig ws1.dependencySignals = some (L ++ [name]) := by
          rw [← hl1]
          exact listLookup_listInsert_self sig (L ++ [name]) ws.dependencySignals
        rw [loadShader_some ws1 name h sig (L ++ [name]) hd1] at hl2
        simp only [Option.some.injEq] at hl2
        have hsh1 : (ws1.shaders.map Prod.fst).Nodup := by
          rw [← hl1]
          exact nodup_map_fst_listInsert name h ws.shaders hsh
        have hsh2 : (ws2.shaders.map Prod.fst).Nodup := by
          rw [← hl2, ← hl1]
          exact nodup_map_fst_listInsert name h _
            (nodup_map_fst_listInsert name h ws.shaders hsh)
        apply signaled_eq_of_equiv ws1 ws2 poll sig' hsh1 hsh2
        · rw [← hl2, ← hl1]
          exact listInsert_overwrite name h h ws.shaders
        · rw [← hl2, ← hl1]
        · intro n s
          rw [← hl2, ← hl1]
          show s ∈ signalsContaining n
              (listInsert sig ((L ++ [name]) ++ [name])
                (listInsert sig (L ++ [name]) ws.dependencySignals)) ↔
            s ∈ signalsContaining n
              (listInsert sig (L ++ [name]) ws.dependencySignals)
          rw [listInsert_overwrite sig (L ++ [name]) ((L ++ [name]) ++ [name])
            ws.dependencySignals]
          exact mem_signalsContaining_listInsert_congr sig s
            ((L ++ [name]) ++ [name]) (L ++ [name]) ws.dependencySignals hdep n
            (by simp [List.mem_append])
  · intro ws poll sig
    have hn : ((ws.updateSystem poll).1.dirtyDependencySignals).Nodup := by
      show ((ws.shaders.foldl (tickStep poll ws.dependencySignals)
        { loaded := ws.shadersLoaded, dirty := [], log := [] }).dirty).Nodup
      exact foldl_tickStep_dirty_nodup poll ws.dependencySignals ws.shaders
        { loaded := ws.shadersLoaded, dirty := [], log := [] } (by simp)
    exact List.nodup_iff_count_le_one.mp hn sig
  · intro s ws build keyH keyL
    unfold ShellRenderer.updateSystem
    by_cases hd : ws.isDependencySignaled s.shaderDependencySignal = true
    · rw [if_pos hd, if_pos hd]
      cases s.refreshPipeline ws build with
      | none => rfl
      | some s1 => rfl
    · rw [if_neg hd, if_neg hd]

theorem idempotent_registration_single_rebuild_witness :
    (ws2W.updateSystem pollW).1.isDependencySignaled 0 =
      (ws1W.updateSystem pollW).1.isDependencySignaled 0 :=
  idempotent_registration_single_rebuild.1 ws0W "a" hW 0 ws1W ws2W
    (by decide) (by decide) (by decide) (by decide) pollW 0

/-- C8: readiness is monotonic — once a subsystem's pipeline Option is Some,
no surviving update_system or refresh_pipeline call ever returns it to None
(rebuilds replace the pipeline in place, and render takes the subsystem
immutably, so it cannot change the slot at all). -/
theorem readiness_monotonic :
    (∀ (s : ShellRenderer) (ws : WatchedShaders) (build : Option Nat)
        (keyH keyL : Bool) (s' : ShellRenderer),
      (s.updateSystem ws build keyH keyL).1 = some s' →
      s.isReady = true → s'.isReady = true) ∧
    (∀ (s : ShellRenderer) (ws : WatchedShaders) (build : Option Nat)
        (s' : ShellRenderer),
      s.refreshPipeline ws build = some s' → s'.isReady = true) ∧
    (∀ (p : PostProcessing) (ws : WatchedShaders) (build : Option Nat)
        (p' : PostProcessing),
      (p.updateSystem ws build).1 = some p' →
      p.isReady = true → p'.isReady = true) ∧
    (∀ (p : PostProcessing) (ws : WatchedShaders) (build : Option Nat)
        (p' : PostProcessing),
      p.refreshPipeline ws build = some p' → p'.isReady = true) := by
  refine ⟨?_, shellRefresh_isReady, ?_, postRefresh_isReady⟩
  · intro s ws build keyH keyL s' hu hr
    unfold ShellRenderer.updateSystem at hu
    by_cases hd : ws.isDependencySignaled s.shaderDependencySignal = true
    · rw [if_pos hd] at hu
      cases hf : s.refreshPipeline ws build with
      | none => rw [hf] at hu; simp at hu
      | some s1 =>
          rw [hf] at hu
          simp only [Option.some.injEq] at hu
          subst hu
          unfold ShellRenderer.isReady
          rw [applyKeys_pipeline]
          exact shellRefresh_isReady s ws build s1 hf
    · rw [if_neg hd] at hu
      simp only [Option.some.injEq] at hu
      subst hu
      unfold ShellRenderer.isReady
      rw [applyKeys_pipeline]
      exact hr
  · intro p ws build p' hu hr
    unfold PostProcessing.updateSystem at hu
    by_cases hd : ws.isDependencySignaled p.shaderDependencySignal = true
    · rw [if_pos hd] at hu
      cases hf : p.refreshPipeline ws build with
      | none => rw [hf] at hu; simp at hu
      | some p1 =>
          rw [hf] at hu
          simp only [Option.some.injEq] at hu
          subst hu
          exact postRefresh_isReady p ws build p1 hf
    · rw [if_neg hd] at hu
      simp only [Option.some.injEq] at hu
      subst hu
      exact hr

theorem readiness_monotonic_witness : shellR.isReady = true :=
  readiness_monotonic.1 shellR wsQuiet none false false shellR (by decide) rfl
